import Mathlib

/-!
Verification of the SSP Director client core (request/option construction and
response-envelope decoding) against its specification.  Definitions are a
shallow embedding of `ssp_director/__init__.py`.  Python string primitives
(`str.strip`, `str.split`, `str.replace`, `str.rstrip`, `str.upper`,
`','.join`) are embedded as executable functions over `List Char` so that
every definition evaluates inside the kernel.
-/

namespace SSPDirector

/-! Python string primitives -/

/-- Python `s.split(sep)` for a one-character separator: splits on every
occurrence, keeping empty parts (`''.split('-') == ['']`). -/
def pySplit (sep : Char) : List Char → List (List Char)
  | [] => [[]]
  | c :: rest =>
      match pySplit sep rest with
      | [] => [[]]
      | part :: parts =>
          if c = sep then [] :: part :: parts else (c :: part) :: parts

/-- Python `s.strip()`: remove leading and trailing whitespace. -/
def pyStrip (l : List Char) : List Char :=
  ((l.dropWhile Char.isWhitespace).reverse.dropWhile Char.isWhitespace).reverse

/-- Python `s.rstrip('/')`: remove trailing slashes. -/
def pyRstripSlash (l : List Char) : List Char :=
  (l.reverse.dropWhile (· = '/')).reverse

/-- Python `s.replace('http://', '')`: delete every occurrence of `http://`,
scanning left to right. -/
def pyRemoveHttp : List Char → List Char
  | 'h' :: 't' :: 't' :: 'p' :: ':' :: '/' :: '/' :: rest => pyRemoveHttp rest
  | c :: rest => c :: pyRemoveHttp rest
  | [] => []

/-- Python `','.join(parts)`. -/
def joinComma : List String → String
  | [] => ""
  | [s] => s
  | s :: rest => s ++ "," ++ joinComma rest

/-- Python `s.upper()` (used on `sort_direction`, which is pure ASCII). -/
def pyUpper (s : String) : String :=
  (s.data.map Char.toUpper).asString

/-! Director.__init__ : API key parsing and base-path construction -/

/-- Embedding of the key parsing in `Director.__init__`:
`service, key = api_key.strip().split('-')`, then membership of `service`
in `['local', 'hosted']`; a failed two-way unpack or an unknown service
raises `ValueError("API key is invalid")`. -/
def parseApiKey (api_key : String) : Except String (String × String) :=
  match pySplit '-' (pyStrip api_key.data) with
  | [service, key] =>
      if service.asString = "local" ∨ service.asString = "hosted" then
        Except.ok (service.asString, key.asString)
      else Except.error "API key is invalid"
  | _ => Except.error "API key is invalid"

/-- Normalization `api_path.strip().rstrip('/').replace('http://', '')`. -/
def normalizeApiPath (api_path : String) : String :=
  (pyRemoveHttp (pyRstripSlash (pyStrip api_path.data))).asString

/-- Base path construction in `Director.__init__`: for a local key the
front controller is appended (`api_path = '%s/index.php?' % api_path`),
then `self._api_path = 'http://%s/api/' % api_path`. -/
def apiBasePath (service : String) (api_path : String) : String :=
  let p := normalizeApiPath api_path
  let p := if service = "local" then p ++ "/index.php?" else p
  "http://" ++ p ++ "/api/"

/-- URL assembly in `Director._get`:
`endpoint = api_path + scope`; `queryparams = '?' + urlencode(options)`;
`url = endpoint + queryparams`.  The url-encoding of the options mapping is
abstracted as the string `encodedOptions`. -/
def buildUrl (basePath scope encodedOptions : String) : String :=
  basePath ++ scope ++ "?" ++ encodedOptions

/-- Modelled from the spec: the wire-protocol pattern
`http://{host}/{index.php?|}api/` read literally — the front-controller
segment `index.php?` (or nothing, for hosted) is inserted between
`http://{host}/` and `api/`. -/
def specPatternBase (service host : String) : String :=
  "http://" ++ host ++ "/" ++ (if service = "local" then "index.php?" else "") ++ "api/"

/-! Envelope sanitization (`Director._get`):
`regex = re.compile(r'\\(?![/u"])'); response = regex.sub(r'', response)` -/

/-- The characters that may follow a backslash for it to survive the
sanitization pass (the negative lookahead set of the regex). -/
def goodFollower (c : Char) : Bool :=
  c = '/' || c = 'u' || c = '"'

/-- Embedding of the regex substitution: scan left to right; a backslash
whose lookahead fails (next char not in the set, or end of input) is a
match and is removed, scanning resuming at the next character; any other
character is kept. -/
def sanitize : List Char → List Char
  | [] => []
  | c :: rest =>
      if c = '\\' then
        (match rest with
         | [] => []
         | d :: _ =>
             if goodFollower d then c :: sanitize rest else sanitize rest)
      else c :: sanitize rest

/-- Whether a backslash sitting immediately before `rest` is kept. -/
def keepBackslash : List Char → Bool
  | [] => false
  | d :: _ => goodFollower d

/-- Modelled from the spec's words for the sanitization pass: remove
exactly those backslash characters that are not immediately followed by
`/`, `u` or `"`, and change nothing else. -/
def sanitizeSpec : List Char → List Char
  | [] => []
  | c :: rest =>
      if c = '\\' && !(keepBackslash rest) then sanitizeSpec rest
      else c :: sanitizeSpec rest

/-- A body in which every backslash is immediately followed by `/`, `u`
or `"` (i.e. contains only the tolerated escape sequences). -/
def allGoodBackslashes : List Char → Bool
  | [] => true
  | c :: rest =>
      if c = '\\' then keepBackslash rest && allGoodBackslashes rest
      else allGoodBackslashes rest

/-- String-level wrapper of the sanitization pass. -/
def sanitizeString (s : String) : String :=
  (sanitize s.data).asString

/-! Envelope decoding (`Director._get`) -/

/-- Decoded JSON values (the result of `json.loads`). -/
inductive JValue where
  | null
  | bool (b : Bool)
  | num (n : Int)
  | str (s : String)
  | arr (xs : List JValue)
  | obj (fields : List (String × JValue))

/-- Python dict built by `json.loads`: for duplicate keys the last entry
wins. -/
def jlookup (key : String) : List (String × JValue) → Option JValue
  | [] => none
  | (k, v) :: rest =>
      match jlookup key rest with
      | some r => some r
      | none => if k = key then some v else none

/-- The comparison `response['stat'] != 'ok'` is false exactly when the field is the
string `"ok"`. -/
def isOkStat : JValue → Bool
  | .str s => s = "ok"
  | _ => false

/-- Outcome of one `_get` call.  `pyKeyError` / `pyTypeError` model the
untyped Python exceptions escaping from `response['stat']` /
`response['error']` / `response['data']` on a payload that is not a dict
or lacks the field; they are not among the library's typed error kinds. -/
inductive PipelineResult where
  | success (data : JValue)
  | connectionError (msg : String)
  | apiError (msg : String)
  | serviceError (err : JValue)
  | notImplemented
  | pyKeyError (key : String)
  | pyTypeError

/-- The typed outcomes of the documented taxonomy: returning data, or a
connection / malformed-payload / service / not-implemented error.
(Configuration errors are raised by the accessors before `_get` runs.) -/
def isTypedOutcome : PipelineResult → Bool
  | .pyKeyError _ => false
  | .pyTypeError => false
  | _ => true

/-- Envelope unwrapping in `Director._get`: a `json.loads` failure
(`ValueError`) becomes `DirectorApiError("Received malformed JSON: %s")`;
otherwise `response['stat']` is compared against `'ok'`, a non-ok stat
raises `DirectorError(response['error'])`, and `response['data']` is
returned.  Subscripting a non-dict raises `TypeError`; a missing key
raises `KeyError` — both escape untyped. -/
def decodeEnvelope (parsed : Except String JValue) : PipelineResult :=
  match parsed with
  | .error msg => .apiError ("Received malformed JSON: " ++ msg)
  | .ok (.obj fields) =>
      match jlookup "stat" fields with
      | none => .pyKeyError "stat"
      | some sv =>
          if isOkStat sv then
            match jlookup "data" fields with
            | none => .pyKeyError "data"
            | some d => .success d
          else
            match jlookup "error" fields with
            | none => .pyKeyError "error"
            | some e => .serviceError e
  | .ok _ => .pyTypeError

/-- Transport outcome of `urlopen(url)` + `getcode()` + `read()`:
either an `IOError`, or a status code together with the raw body. -/
inductive TransportOutcome where
  | ioError
  | response (code : Int) (body : String)

/-- Embedding of `Director._get` downstream of URL construction, with `json.loads`
abstracted as the `parse` argument: an `IOError` from `urlopen` becomes a
`DirectorConnectionError`; a non-200 status becomes a
`DirectorConnectionError`; otherwise the body is sanitized, parsed and
the envelope unwrapped. -/
def director_get (parse : String → Except String JValue) (t : TransportOutcome) :
    PipelineResult :=
  match t with
  | .ioError => .connectionError "Couldn't connect to url"
  | .response code body =>
      if code ≠ 200 then .connectionError "Endpoint could not be reached"
      else decodeEnvelope (parse (sanitizeString body))

/-- A parse outcome that is "complete" for envelope unwrapping: a parse
failure, or an object carrying `stat`, plus `data` when the stat is `"ok"`
and `error` otherwise. -/
def envelopeComplete : Except String JValue → Bool
  | .error _ => true
  | .ok (.obj fields) =>
      match jlookup "stat" fields with
      | none => false
      | some sv =>
          if isOkStat sv then (jlookup "data" fields).isSome
          else (jlookup "error" fields).isSome
  | .ok _ => false

/-! Option values and accessors -/

/-- A primitive query-option value: string or integer. -/
inductive OptVal where
  | s (v : String)
  | i (n : Int)
deriving DecidableEq

/-- Python `int(bool(b))`. -/
def bti (b : Bool) : Int := if b then 1 else 0

/-- First-match lookup in an option mapping. -/
def lookupOpt : List (String × OptVal) → String → Option OptVal
  | [], _ => none
  | (k, v) :: rest, key => if k = key then some v else lookupOpt rest key

/-- Whether an option mapping carries a key. -/
def hasKey (opts : List (String × OptVal)) (key : String) : Bool :=
  (lookupOpt opts key).isSome

/-- A "one or many" argument (`tags`, `exclude`): Python `None`
(the default), a bare scalar, or a list. -/
inductive OneOrMany (α : Type) where
  | nil
  | one (v : α)
  | many (vs : List α)

/-- The normalization applied to a "one or many" argument
(`if not x: x = []` followed by `if not hasattr(x, '__iter__'): x = [x]`,
under Python 2 where scalars — strings and ints included — have no
`__iter__`): a falsy value becomes the empty list, a truthy scalar is
wrapped into a one-element list, a list is left alone. -/
def normalizeArg (truthy : α → Bool) : OneOrMany α → List α
  | .nil => []
  | .one v => if truthy v then [v] else []
  | .many vs => vs

/-- Python truthiness of a string. -/
def truthyStr (s : String) : Bool := s ≠ ""

/-- Python truthiness of an int. -/
def truthyInt (n : Int) : Bool := n ≠ 0

/-- Python truthiness of the optional `scope` argument (default `None`). -/
def truthyScope : Option String → Bool
  | none => false
  | some s => truthyStr s

/-- Python truthiness of the optional `scope_id` argument. -/
def truthyId : Option Int → Bool
  | none => false
  | some n => truthyInt n

/-- Embedding of `GalleryMixin.get_gallery`: validates `order` against
`['display', 'created_on', 'modified_on']`, then builds the options.
An `Except.error` models the `ValueError` raised before `_get` is
invoked (so no network call happens). -/
def get_gallery (gallery_id limit : Int) (order : String) (with_content : Bool) :
    Except String (List (String × OptVal)) :=
  if ¬ (order = "display" ∨ order = "created_on" ∨ order = "modified_on") then
    Except.error "order can only be 'display', 'created_on' or 'modified_on'"
  else
    Except.ok [("gallery_id", .i gallery_id), ("limit", .i limit),
               ("order", .s order), ("with_content", .i (bti with_content))]

/-- Embedding of `AlbumMixin.get_albums`: normalizes `tags`, builds the boolean flags,
and emits `tags` / `tags_exclusive` only when the normalized tag list is
non-empty. -/
def get_albums (only_published only_active list_only only_smart exclude_smart : Bool)
    (tags : OneOrMany String) (tags_exclusive : Bool) : List (String × OptVal) :=
  let tagsL := normalizeArg truthyStr tags
  let opts := [("only_published", OptVal.i (bti only_published)),
               ("only_active", OptVal.i (bti only_active)),
               ("list_only", OptVal.i (bti list_only)),
               ("only_smart", OptVal.i (bti only_smart)),
               ("exclude_smart", OptVal.i (bti exclude_smart))]
  if tagsL ≠ [] then
    opts ++ [("tags", .s (joinComma tagsL)), ("tags_exclusive", .i (bti tags_exclusive))]
  else opts

/-- Embedding of `AlbumMixin.get_galleries_by_album`: normalizes `exclude` and emits
`exclude` as a comma-joined string of `str(int(id))` only when the
normalized list is non-empty. -/
def get_galleries_by_album (album_id : Int) (exclude : OneOrMany Int) :
    List (String × OptVal) :=
  let excl := normalizeArg truthyInt exclude
  let opts := [("album_id", OptVal.i album_id)]
  if excl ≠ [] then
    opts ++ [("exclude", .s (joinComma (excl.map toString)))]
  else opts

/-- Embedding of `ContentMixin.get_contents`: validates `sort_on`, `sort_direction`
and (when truthy) `scope`; builds the base options; injects the random
`buster` (modelled as an explicit argument, since `random.randint` is
non-deterministic) when `sort_on == 'random'`; emits the scope pair only
when both `scope` and `scope_id` are truthy; emits the tag pair only when
the normalized tag list is non-empty. -/
def get_contents (buster : Int) (limit : Int) (only_images only_active : Bool)
    (sort_on sort_direction : String) (scope : Option String) (scope_id : Option Int)
    (tags : OneOrMany String) (tags_exclusive : Bool) :
    Except String (List (String × OptVal)) :=
  if ¬ (sort_on = "created_on" ∨ sort_on = "captured_on" ∨ sort_on = "modified_on" ∨
        sort_on = "filename" ∨ sort_on = "random") then
    Except.error "sort_on can only be 'created_on', 'captured_on', 'modified_on', 'filename' or 'random'"
  else if ¬ (sort_direction = "desc" ∨ sort_direction = "asc") then
    Except.error "sort_direction can only be 'desc' or 'asc'"
  else if truthyScope scope ∧ ¬ (scope = some "gallery" ∨ scope = some "album") then
    Except.error "scope can only be 'gallery' or 'album'"
  else
    let tagsL := normalizeArg truthyStr tags
    let opts := [("limit", OptVal.i limit),
                 ("only_images", OptVal.i (bti only_images)),
                 ("only_active", OptVal.i (bti only_active)),
                 ("sort_on", OptVal.s sort_on),
                 ("sort_direction", OptVal.s (pyUpper sort_direction))]
    let opts := if sort_on = "random" then opts ++ [("buster", .i buster)] else opts
    let opts :=
      if truthyScope scope ∧ truthyId scope_id then
        opts ++ [("scope", .s (scope.getD "")), ("scope_id", .i (scope_id.getD 0))]
      else opts
    let opts :=
      if tagsL ≠ [] then
        opts ++ [("tags", .s (joinComma tagsL)), ("tags_exclusive", .i (bti tags_exclusive))]
      else opts
    Except.ok opts

/-- Embedding of `UserMixin.get_users`: validates `sort` and (when truthy) `scope`;
emits the user-scope triple only when both `scope` and `scope_id` are
truthy. -/
def get_users (sort : String) (scope : Option String) (scope_id : Option Int)
    (scope_all : Bool) : Except String (List (String × OptVal)) :=
  if ¬ (sort = "name" ∨ sort = "activity") then
    Except.error "sort can only be 'name' or 'activity'"
  else if truthyScope scope ∧ ¬ (scope = some "gallery" ∨ scope = some "album") then
    Except.error "scope can only be 'gallery' or 'album'"
  else
    let opts := [("sort", OptVal.s sort)]
    let opts :=
      if truthyScope scope ∧ truthyId scope_id then
        opts ++ [("user_scope_model", .s (scope.getD "")),
                 ("user_scope_id", .i (scope_id.getD 0)),
                 ("user_scope_all", .i (bti scope_all))]
      else opts
    Except.ok opts

/-! Format Registry (`FormatMixin`) -/

/-- One stored size spec: the tuple
`(str(name), int(width), int(height), int(bool(crop)), int(quality), int(bool(sharpening)))`. -/
structure FormatSpec where
  name : String
  width : Int
  height : Int
  crop : Int
  quality : Int
  sharpening : Int
deriving DecidableEq

/-- One stored preview spec: the tuple
`(int(width), int(height), int(bool(crop)), int(quality), int(bool(sharpening)))`. -/
structure PreviewSpec where
  width : Int
  height : Int
  crop : Int
  quality : Int
  sharpening : Int
deriving DecidableEq

/-- The `_formats` dictionary: ordered `sizes` and `user_sizes`
sequences and the single optional `preview` slot. -/
structure Formats where
  sizes : List FormatSpec
  user_sizes : List FormatSpec
  preview : Option PreviewSpec
deriving DecidableEq

/-- The class-attribute initial value `{'sizes': [], 'user_sizes': [], 'preview': None}`. -/
def initFormats : Formats := ⟨[], [], none⟩

/-- Python attribute-resolution model for two `Director` instances `A`
and `B`.  `_formats` is a **class attribute** of `FormatMixin`; an
instance has its own `_formats` only after its `clear_formats` assigned
one (`self._formats = {...}`).  `classFormats` is the shared class-level
dictionary; `instA` / `instB` are the instance attributes when present. -/
structure TwoDirectors where
  classFormats : Formats
  instA : Option Formats
  instB : Option Formats
deriving DecidableEq

/-- Instance selector. -/
inductive Inst where
  | A
  | B
deriving DecidableEq

/-- Two freshly constructed instances: `Director.__init__` never touches
`_formats`, so neither has an instance attribute and both resolve it to
the shared class dictionary. -/
def freshPair : TwoDirectors := ⟨initFormats, none, none⟩

/-- Reading `self._formats`: the instance attribute if present, else the
class attribute. -/
def readFormats (w : TwoDirectors) : Inst → Formats
  | .A => w.instA.getD w.classFormats
  | .B => w.instB.getD w.classFormats

/-- In-place mutation through `self._formats` (e.g.
`self._formats['sizes'].append(...)`): it lands on whichever dictionary
the attribute lookup resolved to — the instance's own if present,
otherwise the shared class dictionary. -/
def mutateFormats (w : TwoDirectors) (i : Inst) (f : Formats) : TwoDirectors :=
  match i with
  | .A =>
      match w.instA with
      | some _ => { w with instA := some f }
      | none => { w with classFormats := f }
  | .B =>
      match w.instB with
      | some _ => { w with instB := some f }
      | none => { w with classFormats := f }

/-- Embedding of `FormatMixin.add_format`: appends the converted tuple to the `sizes`
list reached through `self._formats`. -/
def add_format (w : TwoDirectors) (i : Inst) (name : String) (width height : Int)
    (crop : Bool) (quality : Int) (sharpening : Bool) : TwoDirectors :=
  let f := readFormats w i
  mutateFormats w i
    { f with sizes := f.sizes ++ [⟨name, width, height, bti crop, quality, bti sharpening⟩] }

/-- Embedding of `FormatMixin.add_user_format`: appends to the `user_sizes` list. -/
def add_user_format (w : TwoDirectors) (i : Inst) (name : String) (width height : Int)
    (crop : Bool) (quality : Int) (sharpening : Bool) : TwoDirectors :=
  let f := readFormats w i
  mutateFormats w i
    { f with user_sizes := f.user_sizes ++ [⟨name, width, height, bti crop, quality, bti sharpening⟩] }

/-- Embedding of `FormatMixin.set_preview_format`: stores the preview tuple through
`self._formats['preview'] = (...)`. -/
def set_preview_format (w : TwoDirectors) (i : Inst) (width height : Int)
    (crop : Bool) (quality : Int) (sharpening : Bool) : TwoDirectors :=
  let f := readFormats w i
  mutateFormats w i
    { f with preview := some ⟨width, height, bti crop, quality, bti sharpening⟩ }

/-- Embedding of `FormatMixin.clear_formats`: `self._formats = {'sizes': [], ...}`
always (re)binds a fresh dictionary as an **instance** attribute. -/
def clear_formats (w : TwoDirectors) (i : Inst) : TwoDirectors :=
  match i with
  | .A => { w with instA := some initFormats }
  | .B => { w with instB := some initFormats }

/-! Merging the registry into the options (`Director._get`) -/

/-- Python `','.join(map(str, format))` for a size spec. -/
def serializeFormat (f : FormatSpec) : String :=
  f.name ++ "," ++ toString f.width ++ "," ++ toString f.height ++ "," ++
    toString f.crop ++ "," ++ toString f.quality ++ "," ++ toString f.sharpening

/-- Python `','.join(map(str, format))` for the preview spec. -/
def serializePreview (p : PreviewSpec) : String :=
  toString p.width ++ "," ++ toString p.height ++ "," ++ toString p.crop ++ "," ++
    toString p.quality ++ "," ++ toString p.sharpening

/-- Python `options.update({key: value})`: overwrite the value when the key is
present, append the pair otherwise. -/
def updateOpt (opts : List (String × OptVal)) (key : String) (v : OptVal) :
    List (String × OptVal) :=
  if opts.any (fun p => p.1 = key) then
    opts.map (fun p => if p.1 = key then (key, v) else p)
  else opts ++ [(key, v)]

/-- The key `'%s[%s]' % (pre, i)`. -/
def sizeKey (pre : String) (i : Nat) : String :=
  pre ++ "[" ++ toString i ++ "]"

/-- The entries produced by
`for i, format in enumerate(formats, start=1): options.update({'%s[%s]' % (pre, i): ...})`. -/
def sizeEntries (pre : String) (start : Nat) : List FormatSpec → List (String × OptVal)
  | [] => []
  | f :: rest =>
      (sizeKey pre start, OptVal.s (serializeFormat f)) ::
        sizeEntries pre (start + 1) rest

/-- All registry-derived entries, in the order `_get` applies them:
`size[1..n]`, then `user_size[1..m]`, then `preview` (emitted only when
the preview slot is set — a stored 5-tuple is always truthy). -/
def formatEntries (fs : Formats) : List (String × OptVal) :=
  sizeEntries "size" 1 fs.sizes ++ sizeEntries "user_size" 1 fs.user_sizes ++
    (match fs.preview with
     | some p => [("preview", OptVal.s (serializePreview p))]
     | none => [])

/-- The options dictionary after `_get` merged the Format Registry
snapshot into the caller's options. -/
def mergeFormats (fs : Formats) (opts : List (String × OptVal)) :
    List (String × OptVal) :=
  (formatEntries fs).foldl (fun o kv => updateOpt o kv.1 kv.2) opts

/-! Helper lemmas: decimal representations of naturals are injective -/

/-- The decimal digit characters of a positive natural, most significant
first (`[]` for `0`). -/
def decDigits (n : Nat) : List Char :=
  if h : n = 0 then [] else decDigits (n / 10) ++ [Nat.digitChar (n % 10)]
decreasing_by exact Nat.div_lt_self (Nat.pos_of_ne_zero h) (by decide)

/-- Digit-string valuation, used to invert `decDigits`. -/
def digitsValFrom (a : Nat) (cs : List Char) : Nat :=
  cs.foldl (fun x c => x * 10 + (c.toNat - 48)) a

/-- The character list `Nat.repr` produces. -/
def reprDigits (n : Nat) : List Char :=
  if n = 0 then ['0'] else decDigits n

/-- Last-occurrence lookup in an update list (Python `dict.update`
applied repeatedly: the last write to a key wins). -/
def lastVal (key : String) : List (String × OptVal) → Option OptVal
  | [] => none
  | (k, v) :: rest =>
      match lastVal key rest with
      | some r => some r
      | none => if k = key then some v else none

/-- Whether a `scope` argument passes the accessors' validation: absent
or empty (unscoped) or one of the two recognized model types. -/
def scopeAllowed (sc : Option String) : Bool :=
  !(truthyScope sc) || decide (sc = some "gallery" ∨ sc = some "album")

/-- A transport outcome whose parsed body (when the status is 200) is
complete for envelope unwrapping. -/
def completeTransport (parse : String → Except String JValue) : TransportOutcome → Bool
  | .ioError => true
  | .response code body =>
      if code = 200 then envelopeComplete (parse (sanitizeString body)) else true

theorem digitChar_sub48 (d : Nat) (hd : d < 10) : (Nat.digitChar d).toNat - 48 = d := by
  interval_cases d <;> rfl

theorem digitsValFrom_decDigits (n : Nat) :
    ∀ a, digitsValFrom a (decDigits n) = a * 10 ^ (decDigits n).length + n := by
  induction n using Nat.strong_induction_on with
  | _ n ih =>
    intro a
    by_cases h : n = 0
    · subst h; simp [decDigits, digitsValFrom]
    · rw [decDigits]; simp only [h, dite_false]
      have hd : n / 10 < n := Nat.div_lt_self (Nat.pos_of_ne_zero h) (by decide)
      have hmod : n % 10 < 10 := Nat.mod_lt _ (by decide)
      unfold digitsValFrom
      rw [List.foldl_append]
      have ih1 := ih (n / 10) hd a
      unfold digitsValFrom at ih1
      rw [ih1, List.length_append]
      simp only [List.foldl_cons, List.foldl_nil, List.length_cons, List.length_nil]
      rw [digitChar_sub48 _ hmod, pow_succ]
      have := Nat.div_add_mod n 10
      ring_nf
      omega

theorem digitsVal_decDigits (n : Nat) : digitsValFrom 0 (decDigits n) = n := by
  simpa using digitsValFrom_decDigits n 0

theorem digitsVal_reprDigits (n : Nat) : digitsValFrom 0 (reprDigits n) = n := by
  unfold reprDigits
  by_cases hn : n = 0
  · subst hn; rfl
  · rw [if_neg hn]; exact digitsVal_decDigits n

theorem reprDigits_inj {m n : Nat} (h : reprDigits m = reprDigits n) : m = n := by
  have hv := congrArg (digitsValFrom 0) h
  rwa [digitsVal_reprDigits, digitsVal_reprDigits] at hv

theorem toDigitsCore_eq_reprDigits :
    ∀ (fuel n : Nat) (acc : List Char), n < 10 ^ fuel → 0 < fuel →
      Nat.toDigitsCore 10 fuel n acc = reprDigits n ++ acc := by
  intro fuel
  induction fuel with
  | zero => intro n acc _ hf; omega
  | succ f ih =>
    intro n acc hn _
    show Nat.toDigitsCore 10 (f + 1) n acc = reprDigits n ++ acc
    rw [Nat.toDigitsCore]
    by_cases hq : n / 10 = 0
    · have hn10 : n < 10 := by omega
      simp only [hq, if_true]
      by_cases h0 : n = 0
      · subst h0; rfl
      · unfold reprDigits
        rw [if_neg h0, decDigits]
        simp [h0, hq, decDigits]
    · simp only [hq, if_false]
      have hne : n ≠ 0 := by
        intro h0; subst h0; simp at hq
      have hdivlt : n / 10 < 10 ^ f := by
        rw [Nat.div_lt_iff_lt_mul (by decide : 0 < 10)]
        calc n < 10 ^ (f + 1) := hn
          _ = 10 ^ f * 10 := by rw [pow_succ]
      have hfpos : 0 < f := by
        rcases Nat.eq_zero_or_pos f with hf0 | hf0
        · subst hf0; simp at hdivlt; omega
        · exact hf0
      rw [ih (n / 10) (Nat.digitChar (n % 10) :: acc) hdivlt hfpos]
      unfold reprDigits
      rw [if_neg hq, if_neg hne]
      conv_rhs => rw [decDigits, dif_neg hne]
      simp [List.append_assoc]

theorem natRepr_data (n : Nat) : (Nat.repr n).data = reprDigits n := by
  have h1 : Nat.repr n = (Nat.toDigits 10 n).asString := rfl
  have h2 : Nat.toDigits 10 n = Nat.toDigitsCore 10 (n + 1) n [] := rfl
  have hlt : n < 10 ^ (n + 1) :=
    lt_of_lt_of_le (Nat.lt_pow_self (by decide) n)
      (Nat.pow_le_pow_right (by decide) (by omega))
  rw [h1, h2, toDigitsCore_eq_reprDigits (n + 1) n [] hlt (by omega), List.append_nil]
  rfl

theorem natToString_data_inj {m n : Nat}
    (h : (toString m).data = (toString n).data) : m = n := by
  have hm : (toString m).data = reprDigits m := natRepr_data m
  have hn : (toString n).data = reprDigits n := natRepr_data n
  exact reprDigits_inj (hm ▸ hn ▸ h)

theorem sizeKey_inj (pre : String) {m n : Nat} (h : sizeKey pre m = sizeKey pre n) :
    m = n := by
  unfold sizeKey at h
  have h2 := congrArg String.data h
  simp only [String.data_append, List.append_assoc] at h2
  have h3 := List.append_cancel_left h2
  have h4 := List.append_cancel_left h3
  have h5 := List.append_cancel_right h4
  exact natToString_data_inj h5

/-! Helper lemmas: lookups through `options.update` folds -/

theorem lookupOpt_append (a b : List (String × OptVal)) (key : String) :
    lookupOpt (a ++ b) key =
      match lookupOpt a key with
      | some v => some v
      | none => lookupOpt b key := by
  induction a with
  | nil => simp [lookupOpt]
  | cons p rest ih =>
    obtain ⟨k, v⟩ := p
    by_cases hk : k = key <;> simp [lookupOpt, hk, ih]

theorem lookupOpt_map_replace (o : List (String × OptVal)) (key : String) (v : OptVal)
    (h : o.any (fun p => p.1 = key) = true) :
    lookupOpt (o.map fun p => if p.1 = key then (key, v) else p) key = some v := by
  induction o with
  | nil => simp at h
  | cons p rest ih =>
    obtain ⟨k, w⟩ := p
    simp only [List.map_cons]
    by_cases hk : k = key
    · rw [if_pos (show (k, w).1 = key from hk)]
      simp [lookupOpt]
    · rw [if_neg (show ¬ (k, w).1 = key from hk)]
      simp only [List.any_cons, Bool.or_eq_true, decide_eq_true_eq] at h
      rcases h with h | h
      · exact absurd h hk
      · simp [lookupOpt, hk, ih h]

theorem lookupOpt_map_replace_ne (o : List (String × OptVal)) (key k' : String) (v : OptVal)
    (h : k' ≠ key) :
    lookupOpt (o.map fun p => if p.1 = key then (key, v) else p) k' = lookupOpt o k' := by
  induction o with
  | nil => rfl
  | cons p rest ih =>
    obtain ⟨k, w⟩ := p
    simp only [List.map_cons]
    by_cases hk : k = key
    · rw [if_pos (show (k, w).1 = key from hk)]
      subst hk
      simp [lookupOpt, Ne.symm h, ih]
    · rw [if_neg (show ¬ (k, w).1 = key from hk)]
      by_cases hk' : k = k' <;> simp [lookupOpt, hk', ih]

theorem lookupOpt_of_any_false (o : List (String × OptVal)) (key : String)
    (h : o.any (fun p => p.1 = key) = false) : lookupOpt o key = none := by
  induction o with
  | nil => rfl
  | cons p rest ih =>
    obtain ⟨k, w⟩ := p
    simp only [List.any_cons, Bool.or_eq_false_iff, decide_eq_false_iff_not] at h
    simp [lookupOpt, h.1, ih (by simp [h.2])]

theorem lookupOpt_updateOpt_self (o : List (String × OptVal)) (key : String) (v : OptVal) :
    lookupOpt (updateOpt o key v) key = some v := by
  unfold updateOpt
  cases ha : o.any (fun p => p.1 = key) with
  | true =>
    rw [if_pos rfl]
    exact lookupOpt_map_replace o key v ha
  | false =>
    rw [if_neg (by decide : ¬ (false = true)), lookupOpt_append]
    rw [lookupOpt_of_any_false o key ha]
    simp [lookupOpt]

theorem lookupOpt_updateOpt_ne (o : List (String × OptVal)) (key k' : String) (v : OptVal)
    (h : k' ≠ key) : lookupOpt (updateOpt o key v) k' = lookupOpt o k' := by
  unfold updateOpt
  cases ha : o.any (fun p => p.1 = key) with
  | true =>
    rw [if_pos rfl]
    exact lookupOpt_map_replace_ne o key k' v h
  | false =>
    rw [if_neg (by decide : ¬ (false = true)), lookupOpt_append]
    cases hl : lookupOpt o k' <;> simp [lookupOpt, Ne.symm h, hl]

theorem lookupOpt_foldl_update (kvs : List (String × OptVal)) :
    ∀ (o : List (String × OptVal)) (key : String),
      lookupOpt (kvs.foldl (fun o kv => updateOpt o kv.1 kv.2) o) key =
        match lastVal key kvs with
        | some v => some v
        | none => lookupOpt o key := by
  induction kvs with
  | nil => intro o key; simp [lastVal]
  | cons kv rest ih =>
    intro o key
    obtain ⟨k, v⟩ := kv
    simp only [List.foldl_cons]
    rw [ih]
    cases hl : lastVal key rest with
    | some r => simp [lastVal, hl]
    | none =>
      by_cases hk : k = key
      · subst hk
        simp [lastVal, hl, lookupOpt_updateOpt_self]
      · simp [lastVal, hl, hk, lookupOpt_updateOpt_ne o k key v (Ne.symm hk)]

theorem lastVal_append (key : String) (a b : List (String × OptVal)) :
    lastVal key (a ++ b) =
      match lastVal key b with
      | some r => some r
      | none => lastVal key a := by
  induction a with
  | nil => cases h : lastVal key b <;> simp [lastVal, h]
  | cons kv rest ih =>
    obtain ⟨k, v⟩ := kv
    simp only [List.cons_append, lastVal, List.append_eq]
    rw [ih]
    cases h : lastVal key b <;> cases h2 : lastVal key rest <;> simp [h, h2]

theorem lastVal_sizeEntries_lt (pre : String) (l : List FormatSpec) :
    ∀ s m, m < s → lastVal (sizeKey pre m) (sizeEntries pre s l) = none := by
  induction l with
  | nil => intro s m _; rfl
  | cons f rest ih =>
    intro s m hm
    have hne : sizeKey pre s ≠ sizeKey pre m := by
      intro h; exact absurd (sizeKey_inj pre h) (by omega)
    simp [sizeEntries, lastVal, ih (s + 1) m (by omega), hne]

theorem lastVal_sizeEntries_get (pre : String) (l : List FormatSpec) :
    ∀ s i (hi : i < l.length),
      lastVal (sizeKey pre (s + i)) (sizeEntries pre s l) =
        some (OptVal.s (serializeFormat (l.get ⟨i, hi⟩))) := by
  induction l with
  | nil => intro s i hi; simp at hi
  | cons f rest ih =>
    intro s i hi
    cases i with
    | zero =>
      have h0 : lastVal (sizeKey pre s) (sizeEntries pre (s + 1) rest) = none :=
        lastVal_sizeEntries_lt pre rest (s + 1) s (by omega)
      simp [sizeEntries, lastVal, h0]
    | succ j =>
      have hj : j < rest.length := by simpa using hi
      have := ih (s + 1) j hj
      have harith : s + (j + 1) = (s + 1) + j := by omega
      rw [harith]
      simp [sizeEntries, lastVal, this]

theorem lastVal_sizeEntries_none (pre : String) (l : List FormatSpec) (key : String)
    (h : ∀ m, key ≠ sizeKey pre m) :
    ∀ s, lastVal key (sizeEntries pre s l) = none := by
  induction l with
  | nil => intro s; rfl
  | cons f rest ih =>
    intro s
    simp [sizeEntries, lastVal, ih (s + 1), Ne.symm (h s)]

theorem sizeKey_size_ne_user (m n : Nat) : sizeKey "size" m ≠ sizeKey "user_size" n := by
  intro h
  have h2 := congrArg String.data h
  unfold sizeKey at h2
  simp only [String.data_append, List.append_assoc] at h2
  simp at h2

theorem preview_ne_sizeKey (pre : String) (c : Char) (hc : pre.data.head? = some c)
    (hne : c ≠ 'p') (m : Nat) : ("preview" : String) ≠ sizeKey pre m := by
  intro h
  have h2 := congrArg String.data h
  unfold sizeKey at h2
  simp only [String.data_append, List.append_assoc] at h2
  cases hd : pre.data with
  | nil => rw [hd] at hc; simp at hc
  | cons a rest =>
    rw [hd] at hc h2
    simp only [List.head?_cons, Option.some.injEq] at hc
    simp only [List.cons_append, List.cons.injEq] at h2
    exact hne (hc ▸ h2.1.symm)

theorem stringDataInj {s t : String} (h : s.data = t.data) : s = t := by
  cases s; cases t; exact congrArg String.mk h

theorem strAppend_assoc (a b c : String) : (a ++ b) ++ c = a ++ (b ++ c) := by
  apply stringDataInj
  simp [String.data_append, List.append_assoc]

theorem normalizeArg_one {α : Type} (truthy : α → Bool) (v : α) (hv : truthy v = true) :
    normalizeArg truthy (OneOrMany.one v) = normalizeArg truthy (OneOrMany.many [v]) := by
  simp [normalizeArg, hv]

/-! Claim theorems -/

/-- C1: the spec requires Format Registry state to be scoped to a single
client instance — `add_format` on instance `A` must leave instance `B`'s
registry unchanged.  The code instead keeps `_formats` as a shared
class-level mutable default, so `A.add_format('thumb', 150, 120)` on a
fresh pair of instances changes what `B` reads: `B`'s `sizes` sequence
becomes `[('thumb', 150, 120, 1, 75, 1)]` instead of staying empty.  This
evaluates the embedded code at that failing input. -/
theorem c1_format_registry_shared_across_instances :
    readFormats (add_format freshPair Inst.A "thumb" 150 120 true 75 true) Inst.B ≠
      readFormats freshPair Inst.B ∧
    readFormats (add_format freshPair Inst.A "thumb" 150 120 true 75 true) Inst.B =
      ⟨[⟨"thumb", 150, 120, 1, 75, 1⟩], [], none⟩ := by
  exact ⟨by decide, rfl⟩

/-- C2 (counterexample): the claim says an empty token must raise a
configuration error, but the key `"hosted-"` — service `hosted`, empty
token — is accepted by the constructor's parsing. -/
theorem c2_counterexample_empty_token_accepted :
    parseApiKey "hosted-" = Except.ok ("hosted", "") := rfl

/-- C2 (amended): construction succeeds exactly when the stripped key
splits on `-` into exactly two parts whose first is `local` or `hosted`;
the token part may be empty.  Every other string (no dash, more than one
dash, unrecognized service prefix) is rejected with the configuration
error before any network use. -/
theorem c2_key_validation (s : String) :
    (parseApiKey s).isOk = true ↔
      ∃ service token, pySplit '-' (pyStrip s.data) = [service, token] ∧
        (service.asString = "local" ∨ service.asString = "hosted") := by
  unfold parseApiKey
  cases hsp : pySplit '-' (pyStrip s.data) with
  | nil => simp [Except.isOk, Except.toBool]
  | cons a tl =>
    cases tl with
    | nil => simp [Except.isOk, Except.toBool]
    | cons b tl2 =>
      cases tl2 with
      | nil =>
        by_cases hs : a.asString = "local" ∨ a.asString = "hosted" <;>
          simp [Except.isOk, Except.toBool, hs]
      | cons c tl3 => simp [Except.isOk, Except.toBool]

/-- C3: the sanitization pass removes exactly those backslashes not
immediately followed by `/`, `u` or `"` (a backslash at end of input
included) and changes nothing else: it coincides with the pointwise
description `sanitizeSpec`, and every body whose backslashes all carry a
tolerated follower is a fixed point. -/
theorem sanitize_cons_ne (c : Char) (rest : List Char) (hc : ¬ c = '\\') :
    sanitize (c :: rest) = c :: sanitize rest := by
  rw [show sanitize (c :: rest) =
      (if c = '\\' then
        (match rest with
         | [] => []
         | d :: _ => if goodFollower d then c :: sanitize rest else sanitize rest)
       else c :: sanitize rest) from rfl,
    if_neg hc]

theorem sanitize_bs_cons (d : Char) (rest' : List Char) :
    sanitize ('\\' :: d :: rest') =
      if goodFollower d then '\\' :: sanitize (d :: rest') else sanitize (d :: rest') := rfl

theorem sanitizeSpec_cons (c : Char) (rest : List Char) :
    sanitizeSpec (c :: rest) =
      if (c = '\\') && !(keepBackslash rest) then sanitizeSpec rest
      else c :: sanitizeSpec rest := rfl

theorem c3_sanitize_removes_exactly_bad_backslashes :
    (∀ l, sanitize l = sanitizeSpec l) ∧
    (∀ l, allGoodBackslashes l = true → sanitize l = l) := by
  constructor
  · intro l
    induction l with
    | nil => rfl
    | cons c rest ih =>
      by_cases hc : c = '\\'
      · subst hc
        cases rest with
        | nil => rfl
        | cons d rest' =>
          rw [sanitize_bs_cons, sanitizeSpec_cons]
          have hk : keepBackslash (d :: rest') = goodFollower d := rfl
          rw [hk]
          cases hgf : goodFollower d <;> simp [ih]
      · rw [sanitize_cons_ne c rest hc, sanitizeSpec_cons]
        simp [hc, ih]
  · intro l h
    induction l with
    | nil => rfl
    | cons c rest ih =>
      by_cases hc : c = '\\'
      · subst hc
        rw [show allGoodBackslashes ('\\' :: rest) =
            (keepBackslash rest && allGoodBackslashes rest) from rfl,
          Bool.and_eq_true] at h
        cases rest with
        | nil => exact absurd h.1 (by decide)
        | cons d rest' =>
          have hd : goodFollower d = true := h.1
          rw [sanitize_bs_cons, if_pos hd, ih h.2]
      · rw [show allGoodBackslashes (c :: rest) =
            (if c = '\\' then keepBackslash rest && allGoodBackslashes rest
             else allGoodBackslashes rest) from rfl,
          if_neg hc] at h
        rw [sanitize_cons_ne c rest hc, ih h]

/-- C3 witness: the theorem applied to concrete bodies — `\"a\n` (kept
quote-escape backslash, dropped `\n` backslash) and the pure
`A`-style body as a fixed point. -/
theorem c3_witness :
    sanitize ['\\', '"', 'a', '\\', 'n'] = sanitizeSpec ['\\', '"', 'a', '\\', 'n'] ∧
    sanitize ['\\', 'u', '0', '0', '4', '1'] = ['\\', 'u', '0', '0', '4', '1'] :=
  ⟨c3_sanitize_removes_exactly_bad_backslashes.1 _,
   c3_sanitize_removes_exactly_bad_backslashes.2 _ (by decide)⟩

/-- C5 (counterexample): the claim quantifies over every bare scalar, but
a falsy scalar is normalized to the empty collection, not the singleton:
`get_galleries_by_album(5, exclude=0)` omits the `exclude` key while
`get_galleries_by_album(5, exclude=[0])` emits `exclude="0"`. -/
theorem c5_counterexample_falsy_scalar :
    get_galleries_by_album 5 (OneOrMany.one 0) ≠
      get_galleries_by_album 5 (OneOrMany.many [0]) := by decide

/-- C5 (amended): for every truthy scalar (non-empty string tag, non-zero
id), passing the bare scalar yields the same outgoing options as passing
the one-element collection containing it, for `tags` of `get_albums` and
`get_contents` and `exclude` of `get_galleries_by_album`; falsy scalars
(empty string, zero) are instead normalized to the empty collection. -/
theorem c5_truthy_scalar_normalization :
    (∀ op oa lo os es (v : String) te, truthyStr v = true →
        get_albums op oa lo os es (OneOrMany.one v) te =
          get_albums op oa lo os es (OneOrMany.many [v]) te) ∧
    (∀ aid (n : Int), truthyInt n = true →
        get_galleries_by_album aid (OneOrMany.one n) =
          get_galleries_by_album aid (OneOrMany.many [n])) ∧
    (∀ b l oi oa so sd sc sid (v : String) te, truthyStr v = true →
        get_contents b l oi oa so sd sc sid (OneOrMany.one v) te =
          get_contents b l oi oa so sd sc sid (OneOrMany.many [v]) te) := by
  refine ⟨?_, ?_, ?_⟩
  · intro op oa lo os es v te hv
    unfold get_albums
    rw [normalizeArg_one truthyStr v hv]
  · intro aid n hn
    unfold get_galleries_by_album
    rw [normalizeArg_one truthyInt n hn]
  · intro b l oi oa so sd sc sid v te hv
    unfold get_contents
    rw [normalizeArg_one truthyStr v hv]

/-- C5 witness: the amended theorem applied at a non-empty string tag and
a non-zero exclusion id. -/
theorem c5_witness :
    get_albums true true false false false (OneOrMany.one "vacation") true =
      get_albums true true false false false (OneOrMany.many ["vacation"]) true ∧
    get_galleries_by_album 7 (OneOrMany.one 81173) =
      get_galleries_by_album 7 (OneOrMany.many [81173]) :=
  ⟨c5_truthy_scalar_normalization.1 true true false false false "vacation" true (by decide),
   c5_truthy_scalar_normalization.2.1 7 81173 (by decide)⟩

/-- C9 (counterexample): for a local key the code inserts the front
controller as `{host}/index.php?` and then wraps with `http://%s/api/`,
producing `http://{host}/index.php?/api/` — one `/` more than the spec's
pattern `http://{host}/{index.php?|}api/` read literally. -/
theorem c9_counterexample_local_base_path :
    apiBasePath "local" "example.com" = "http://example.com/index.php?/api/" ∧
    specPatternBase "local" "example.com" = "http://example.com/index.php?api/" ∧
    apiBasePath "local" "example.com" ≠ specPatternBase "local" "example.com" := by
  exact ⟨by decide, by decide, by decide⟩

/-- C9 (amended): with the host scheme- and trailing-slash-stripped
first, the hosted base path is `http://{host}/api/`, the local base path
is `http://{host}/index.php?/api/` (a slash separates the front
controller from `api/`), and the full request URL is
`base_path ++ scope ++ '?' ++ url_encoded(options)`. -/
theorem c9_url_construction :
    (∀ p, apiBasePath "hosted" p = "http://" ++ normalizeApiPath p ++ "/api/") ∧
    (∀ p, apiBasePath "local" p =
        "http://" ++ normalizeApiPath p ++ "/index.php?/api/") ∧
    (∀ base scope enc, buildUrl base scope enc = base ++ scope ++ "?" ++ enc) := by
  refine ⟨fun p => rfl, ?_, fun _ _ _ => rfl⟩
  intro p
  have e : apiBasePath "local" p =
      "http://" ++ (normalizeApiPath p ++ "/index.php?") ++ "/api/" := rfl
  rw [e, show ("/index.php?/api/" : String) = "/index.php?" ++ "/api/" from by decide]
  simp only [strAppend_assoc]

theorem scopeAllowed_of_fail {sc : Option String}
    (h : truthyScope sc = true ∧ ¬ (sc = some "gallery" ∨ sc = some "album")) :
    scopeAllowed sc = false := by
  simp [scopeAllowed, h.1, h.2]

theorem scopeAllowed_of_pass {sc : Option String}
    (h : ¬ (truthyScope sc = true ∧ ¬ (sc = some "gallery" ∨ sc = some "album"))) :
    scopeAllowed sc = true := by
  unfold scopeAllowed
  cases ht : truthyScope sc
  · rfl
  · rw [ht] at h
    simp only [true_and, not_not] at h
    simp [h]

/-- C6: for every enum-constrained parameter — `order` of the gallery
fetch, `sort_on` / `sort_direction` / `scope` of the content listing,
`sort` / `scope` of the user listing — the accessor succeeds (builds
options for `_get`) exactly when the value lies in the documented allowed
set (for `scope`, absent/empty is also allowed, meaning unscoped);
otherwise it raises the `ValueError` before any network call is made
(an `Except.error` result is produced instead of options ever reaching
`_get`). -/
theorem c6_enum_validation :
    (∀ gid lim ord wc,
        (get_gallery gid lim ord wc).isOk =
          decide (ord = "display" ∨ ord = "created_on" ∨ ord = "modified_on")) ∧
    (∀ b l oi oa so sd sc sid tg te,
        (get_contents b l oi oa so sd sc sid tg te).isOk =
          (decide (so = "created_on" ∨ so = "captured_on" ∨ so = "modified_on" ∨
              so = "filename" ∨ so = "random") &&
           decide (sd = "desc" ∨ sd = "asc") &&
           scopeAllowed sc)) ∧
    (∀ st sc sid sa,
        (get_users st sc sid sa).isOk =
          (decide (st = "name" ∨ st = "activity") && scopeAllowed sc)) := by
  refine ⟨?_, ?_, ?_⟩
  · intro gid lim ord wc
    unfold get_gallery
    by_cases h : ord = "display" ∨ ord = "created_on" ∨ ord = "modified_on"
    · rw [if_neg (not_not_intro h)]
      simp [Except.isOk, Except.toBool, h]
    · rw [if_pos h]
      simp [Except.isOk, Except.toBool, h]
  · intro b l oi oa so sd sc sid tg te
    unfold get_contents
    by_cases h1 : so = "created_on" ∨ so = "captured_on" ∨ so = "modified_on" ∨
        so = "filename" ∨ so = "random"
    · rw [if_neg (not_not_intro h1)]
      by_cases h2 : sd = "desc" ∨ sd = "asc"
      · rw [if_neg (not_not_intro h2)]
        by_cases h3 : truthyScope sc = true ∧ ¬ (sc = some "gallery" ∨ sc = some "album")
        · rw [if_pos h3]
          simp [Except.isOk, Except.toBool, h1, h2, scopeAllowed_of_fail h3]
        · rw [if_neg h3]
          simp [Except.isOk, Except.toBool, h1, h2, scopeAllowed_of_pass h3]
      · rw [if_pos h2]
        simp [Except.isOk, Except.toBool, h2]
    · rw [if_pos h1]
      simp [Except.isOk, Except.toBool, h1]
  · intro st sc sid sa
    unfold get_users
    by_cases h1 : st = "name" ∨ st = "activity"
    · rw [if_neg (not_not_intro h1)]
      by_cases h3 : truthyScope sc = true ∧ ¬ (sc = some "gallery" ∨ sc = some "album")
      · rw [if_pos h3]
        simp [Except.isOk, Except.toBool, h1, scopeAllowed_of_fail h3]
      · rw [if_neg h3]
        simp [Except.isOk, Except.toBool, h1, scopeAllowed_of_pass h3]
    · rw [if_pos h1]
      simp [Except.isOk, Except.toBool, h1]

theorem hasKey_append (a b : List (String × OptVal)) (k : String) :
    hasKey (a ++ b) k = (hasKey a k || hasKey b k) := by
  unfold hasKey
  rw [lookupOpt_append]
  cases lookupOpt a k <;> simp

/-- C7: for the content listing and the user listing, the scope filter
keys appear in the outgoing options exactly when both `scope` and
`scope_id` are truthy (present and non-empty / non-zero); supplying a
valid scope without its id (or vice versa) silently omits the keys and
the accessor still succeeds. -/
theorem c7_scope_requires_scope_id :
    (∀ b l oi oa so sd sc sid tg te opts,
        get_contents b l oi oa so sd sc sid tg te = Except.ok opts →
          hasKey opts "scope" = (truthyScope sc && truthyId sid) ∧
          hasKey opts "scope_id" = (truthyScope sc && truthyId sid)) ∧
    (∀ st sc sid sa opts,
        get_users st sc sid sa = Except.ok opts →
          hasKey opts "user_scope_model" = (truthyScope sc && truthyId sid) ∧
          hasKey opts "user_scope_id" = (truthyScope sc && truthyId sid)) ∧
    (get_users "name" (some "gallery") none false).isOk = true ∧
    (get_contents 0 0 false true "created_on" "desc" (some "gallery") none
        OneOrMany.nil true).isOk = true := by
  refine ⟨?_, ?_, by decide, by decide⟩
  · intro b l oi oa so sd sc sid tg te opts h
    unfold get_contents at h
    split_ifs at h <;> simp at h <;> subst h <;>
      cases hts : truthyScope sc <;> cases hti : truthyId sid <;>
        by_cases htg : normalizeArg truthyStr tg = [] <;>
          simp_all [hasKey_append, hasKey, lookupOpt]
  · intro st sc sid sa opts h
    unfold get_users at h
    split_ifs at h <;> simp at h <;> subst h <;>
      cases hts : truthyScope sc <;> cases hti : truthyId sid <;>
        simp_all [hasKey_append, hasKey, lookupOpt]

/-- C7 witness: the scope-pair theorem applied to a concrete scoped
content listing. -/
theorem c7_witness :
    hasKey [("limit", OptVal.i 5), ("only_images", OptVal.i 0), ("only_active", OptVal.i 1),
        ("sort_on", OptVal.s "created_on"), ("sort_direction", OptVal.s "DESC"),
        ("scope", OptVal.s "album"), ("scope_id", OptVal.i 441975)] "scope" =
      (truthyScope (some "album") && truthyId (some 441975)) ∧
    hasKey [("limit", OptVal.i 5), ("only_images", OptVal.i 0), ("only_active", OptVal.i 1),
        ("sort_on", OptVal.s "created_on"), ("sort_direction", OptVal.s "DESC"),
        ("scope", OptVal.s "album"), ("scope_id", OptVal.i 441975)] "scope_id" =
      (truthyScope (some "album") && truthyId (some 441975)) :=
  c7_scope_requires_scope_id.1 0 5 false true "created_on" "desc" (some "album")
    (some 441975) OneOrMany.nil true
    [("limit", OptVal.i 5), ("only_images", OptVal.i 0), ("only_active", OptVal.i 1),
     ("sort_on", OptVal.s "created_on"), ("sort_direction", OptVal.s "DESC"),
     ("scope", OptVal.s "album"), ("scope_id", OptVal.i 441975)] rfl

/-- C4: for every response body whose sanitized text parses as an
envelope object carrying `stat`, `data` and `error`, the request
pipeline returns the `data` payload when `stat` is exactly `"ok"` and
raises `DirectorError` carrying the `error` value verbatim otherwise;
a body whose sanitized text fails to parse raises the distinct
`DirectorApiError` carrying the parse failure detail. -/
theorem c4_envelope_decoding (parse : String → Except String JValue) (body : String)
    (fields : List (String × JValue)) (sv d e : JValue)
    (hp : parse (sanitizeString body) = Except.ok (JValue.obj fields))
    (hs : jlookup "stat" fields = some sv)
    (hd : jlookup "data" fields = some d)
    (he : jlookup "error" fields = some e) :
    director_get parse (TransportOutcome.response 200 body) =
      (if isOkStat sv then PipelineResult.success d else PipelineResult.serviceError e) ∧
    (∀ msg body2, parse (sanitizeString body2) = Except.error msg →
        director_get parse (TransportOutcome.response 200 body2) =
          PipelineResult.apiError ("Received malformed JSON: " ++ msg)) := by
  constructor
  · simp only [director_get]
    rw [if_neg (by omega : ¬ ((200 : Int) ≠ 200)), hp]
    simp only [decodeEnvelope, hs]
    cases hok : isOkStat sv <;> simp [hd, he]
  · intro msg body2 hb
    simp only [director_get]
    rw [if_neg (by omega : ¬ ((200 : Int) ≠ 200)), hb]
    rfl

/-- C4 witness: the theorem applied to a mock transport returning the
spec's failure envelope (extended with an untouched `data` field), as in
`{"stat": "fail", "error": "Gallery not found", ...}`. -/
theorem c4_witness :
    director_get
        (fun _ => Except.ok (JValue.obj
          [("stat", JValue.str "fail"), ("data", JValue.null),
           ("error", JValue.str "Gallery not found")]))
        (TransportOutcome.response 200 "") =
      (if isOkStat (JValue.str "fail") then PipelineResult.success JValue.null
       else PipelineResult.serviceError (JValue.str "Gallery not found")) :=
  (c4_envelope_decoding
    (fun _ => Except.ok (JValue.obj
      [("stat", JValue.str "fail"), ("data", JValue.null),
       ("error", JValue.str "Gallery not found")]))
    "" [("stat", JValue.str "fail"), ("data", JValue.null),
        ("error", JValue.str "Gallery not found")]
    (JValue.str "fail") JValue.null (JValue.str "Gallery not found")
    rfl rfl rfl rfl).1

/-- C8: on every request the Format Registry snapshot is merged into the
query options: the key `size[i]` (1-indexed, insertion order) maps to the
comma-joined stringified fields of the i-th stored size spec, `user_size[i]`
likewise for user-size specs, and a `preview` key is present exactly when
the preview slot is set (assuming the caller's own options do not already
carry a `preview` key — no accessor emits one). -/
theorem c8_format_serialization (fs : Formats) (opts : List (String × OptVal))
    (hp : hasKey opts "preview" = false) :
    (∀ i (hi : i < fs.sizes.length),
        lookupOpt (mergeFormats fs opts) (sizeKey "size" (i + 1)) =
          some (OptVal.s (serializeFormat (fs.sizes.get ⟨i, hi⟩)))) ∧
    (∀ i (hi : i < fs.user_sizes.length),
        lookupOpt (mergeFormats fs opts) (sizeKey "user_size" (i + 1)) =
          some (OptVal.s (serializeFormat (fs.user_sizes.get ⟨i, hi⟩)))) ∧
    hasKey (mergeFormats fs opts) "preview" = fs.preview.isSome := by
  have hmerge : ∀ key, lookupOpt (mergeFormats fs opts) key =
      (match lastVal key (formatEntries fs) with
       | some v => some v
       | none => lookupOpt opts key) :=
    fun key => lookupOpt_foldl_update (formatEntries fs) opts key
  refine ⟨?_, ?_, ?_⟩
  · intro i hi
    rw [hmerge]
    unfold formatEntries
    rw [lastVal_append, lastVal_append]
    have hpr : lastVal (sizeKey "size" (i + 1))
        (match fs.preview with
         | some p => [("preview", OptVal.s (serializePreview p))]
         | none => []) = none := by
      cases fs.preview with
      | none => rfl
      | some pv =>
        have hne : ("preview" : String) ≠ sizeKey "size" (i + 1) :=
          preview_ne_sizeKey "size" 's' rfl (by decide) (i + 1)
        simp [lastVal, hne]
    have hu : lastVal (sizeKey "size" (i + 1))
        (sizeEntries "user_size" 1 fs.user_sizes) = none :=
      lastVal_sizeEntries_none "user_size" fs.user_sizes _
        (fun m => sizeKey_size_ne_user (i + 1) m) 1
    have hsz : lastVal (sizeKey "size" (i + 1)) (sizeEntries "size" 1 fs.sizes) =
        some (OptVal.s (serializeFormat (fs.sizes.get ⟨i, hi⟩))) := by
      have := lastVal_sizeEntries_get "size" fs.sizes 1 i hi
      rwa [Nat.add_comm 1 i] at this
    simp only [hpr, hu, hsz]
  · intro i hi
    rw [hmerge]
    unfold formatEntries
    rw [lastVal_append, lastVal_append]
    have hpr : lastVal (sizeKey "user_size" (i + 1))
        (match fs.preview with
         | some p => [("preview", OptVal.s (serializePreview p))]
         | none => []) = none := by
      cases fs.preview with
      | none => rfl
      | some pv =>
        have hne : ("preview" : String) ≠ sizeKey "user_size" (i + 1) :=
          preview_ne_sizeKey "user_size" 'u' rfl (by decide) (i + 1)
        simp [lastVal, hne]
    have hu : lastVal (sizeKey "user_size" (i + 1))
        (sizeEntries "user_size" 1 fs.user_sizes) =
        some (OptVal.s (serializeFormat (fs.user_sizes.get ⟨i, hi⟩))) := by
      have := lastVal_sizeEntries_get "user_size" fs.user_sizes 1 i hi
      rwa [Nat.add_comm 1 i] at this
    simp only [hpr, hu]
  · unfold hasKey
    rw [hmerge]
    unfold formatEntries
    rw [lastVal_append, lastVal_append]
    have hs0 : lastVal "preview" (sizeEntries "size" 1 fs.sizes) = none :=
      lastVal_sizeEntries_none "size" fs.sizes _
        (fun m => preview_ne_sizeKey "size" 's' rfl (by decide) m) 1
    have hu0 : lastVal "preview" (sizeEntries "user_size" 1 fs.user_sizes) = none :=
      lastVal_sizeEntries_none "user_size" fs.user_sizes _
        (fun m => preview_ne_sizeKey "user_size" 'u' rfl (by decide) m) 1
    cases hpv : fs.preview with
    | none =>
      simp only [hs0, hu0, lastVal]
      exact hp
    | some pv =>
      simp only [hs0, hu0, lastVal]
      rfl

/-- C8 witness: the merge theorem applied to a concrete registry carrying
one size spec, one user-size spec and a preview, over accessor options. -/
theorem c8_witness :
    lookupOpt
        (mergeFormats
          ⟨[⟨"thumb", 150, 120, 1, 75, 1⟩], [⟨"medium", 150, 120, 1, 75, 1⟩],
           some ⟨132322, 123223, 1, 75, 1⟩⟩
          [("album_id", OptVal.i 7)])
        (sizeKey "size" (0 + 1)) =
      some (OptVal.s (serializeFormat
        (([⟨"thumb", 150, 120, 1, 75, 1⟩] : List FormatSpec).get ⟨0, by decide⟩))) ∧
    hasKey
        (mergeFormats
          ⟨[⟨"thumb", 150, 120, 1, 75, 1⟩], [⟨"medium", 150, 120, 1, 75, 1⟩],
           some ⟨132322, 123223, 1, 75, 1⟩⟩
          [("album_id", OptVal.i 7)])
        "preview" = (some (⟨132322, 123223, 1, 75, 1⟩ : PreviewSpec)).isSome := by
  have h := c8_format_serialization
    ⟨[⟨"thumb", 150, 120, 1, 75, 1⟩], [⟨"medium", 150, 120, 1, 75, 1⟩],
     some ⟨132322, 123223, 1, 75, 1⟩⟩
    [("album_id", OptVal.i 7)] (by decide)
  exact ⟨h.1 0 (by decide), h.2.2⟩

theorem decode_typed_of_complete (e : Except String JValue)
    (h : envelopeComplete e = true) : isTypedOutcome (decodeEnvelope e) = true := by
  cases e with
  | error msg => rfl
  | ok v =>
    cases v with
    | obj fields =>
      simp only [envelopeComplete] at h
      simp only [decodeEnvelope]
      cases hs : jlookup "stat" fields with
      | none => rw [hs] at h; simp at h
      | some sv =>
        simp only [hs] at h ⊢
        cases hok : isOkStat sv with
        | true =>
          simp only [hok, if_true] at h ⊢
          obtain ⟨d, hd⟩ := Option.isSome_iff_exists.mp h
          simp [hd, isTypedOutcome]
        | false =>
          simp only [hok, if_false] at h ⊢
          obtain ⟨e, he⟩ := Option.isSome_iff_exists.mp h
          simp [he, isTypedOutcome]
    | null => exact absurd h (by decide)
    | bool b => exact Bool.noConfusion h
    | num n => exact Bool.noConfusion h
    | str s => exact Bool.noConfusion h
    | arr xs => exact Bool.noConfusion h

/-- C10 (counterexample): an envelope that parses as a JSON object but
lacks the `data` field — `{"stat": "ok"}` — makes the pipeline raise an
untyped Python `KeyError`, not one of the five documented typed error
kinds. -/
theorem c10_counterexample_missing_data_field :
    isTypedOutcome
        (director_get (fun _ => Except.ok (JValue.obj [("stat", JValue.str "ok")]))
          (TransportOutcome.response 200 "")) = false := by decide

/-- C10 (amended): every failure of the request/decode pipeline is one of
the documented typed error kinds provided the parsed body, when it is a
JSON object reached with status 200, carries `stat` together with `data`
(when the stat is `"ok"`) or `error` (otherwise); envelopes lacking those
fields, or parses that are not objects, instead escape as untyped Python
`KeyError`/`TypeError` failures. -/
theorem c10_typed_errors (parse : String → Except String JValue) (t : TransportOutcome)
    (h : completeTransport parse t = true) :
    isTypedOutcome (director_get parse t) = true := by
  cases t with
  | ioError => rfl
  | response code body =>
    simp only [completeTransport] at h
    simp only [director_get]
    by_cases hc : code = 200
    · rw [if_pos hc] at h
      rw [if_neg (not_not_intro hc)]
      exact decode_typed_of_complete _ h
    · rw [if_pos hc]
      rfl

/-- C10 witness: the amended theorem applied to a complete success
envelope at status 200. -/
theorem c10_witness :
    isTypedOutcome
        (director_get
          (fun _ => Except.ok (JValue.obj
            [("stat", JValue.str "ok"), ("data", JValue.null)]))
          (TransportOutcome.response 200 "")) = true :=
  c10_typed_errors
    (fun _ => Except.ok (JValue.obj [("stat", JValue.str "ok"), ("data", JValue.null)]))
    (TransportOutcome.response 200 "") (by decide)

end SSPDirector
